import Mathlib

/-!
Shallow embedding of the file search engine of this repository
(`file_searcher.py` with its GPU companion `gpu_search_engine.py`).

Modelling conventions:
* Python byte strings are `List Nat`; a file is a `FileData` (content bytes
  plus an integer modification timestamp).  `os`-level I/O is mediated by a
  `FileEnv`, which carries the (optional) regular file behind a path together
  with one optional injected exception per primitive operation
  (`os.stat`, `os.path.getsize`, the initial 8 KiB read, the full read, the
  read of the remainder of an open handle, and `mmap`).  Raising is modelled
  with `Except IOErr`.
* A compiled `re.Pattern` is opaque library state; it is modelled as its
  source text (`pattern.pattern`) plus an abstract total matching function
  for `pattern.search` on decoded text.  `fnmatch.fnmatch`,
  `os.path.basename` and `os.path.splitext` are likewise abstracted into a
  `PyLib` record of library functions, and `re.compile` is an abstract
  compilation function that may fail with the text of the syntax error.
* `bytes.decode("utf-8", errors="ignore")` is implemented concretely
  (`utf8DecodeIgnore`): invalid sequences are skipped following CPython's
  maximal-subpart stepping, never replaced and never fatal.
* `os.walk` enumeration is abstracted as the materialized candidate list
  `filesToCheck` handed to the dispatch loop, matching the code, which fully
  materializes `files_to_check` before submitting work.
* The worker pool completes futures in an arbitrary order; the completion
  loop (`searchLoop`) therefore takes the completion-ordered list of worker
  outcomes as input.  The shared stop flag is modelled as a boolean constant
  for the duration of one call.
-/

set_option maxRecDepth 2048

namespace Searcher

/-- Python exception kinds the engine distinguishes: the tuple
`(PermissionError, OSError, UnicodeDecodeError, ValueError)` appearing in the
`except` clauses, plus a stand-in for every other `Exception`. -/
inductive IOErr where
  | permissionError
  | osError
  | unicodeDecodeError
  | valueError
  | otherError
deriving DecidableEq, Repr

/-- Is `b` a UTF-8 continuation byte (`0x80..0xBF`)? -/
def utf8Cont (b : Nat) : Bool := decide (0x80 ≤ b) && decide (b ≤ 0xBF)

/-- One UTF-8 decode step on lead byte `b` with following bytes `rest`:
the decoded character when the sequence is well formed, together with how
many continuation bytes it consumed; on an ill-formed sequence, no character
and the length of the maximal subpart beyond the lead byte (CPython's
stepping for the `ignore`/`replace` error handlers). -/
def utf8Step (b : Nat) (rest : List Nat) : Option Char × Nat :=
  if b < 0x80 then (some (Char.ofNat b), 0)
  else if decide (0xC2 ≤ b) && decide (b ≤ 0xDF) then
    match rest with
    | b1 :: _ =>
      if utf8Cont b1 then (some (Char.ofNat ((b - 0xC0) * 0x40 + (b1 - 0x80))), 1)
      else (none, 0)
    | [] => (none, 0)
  else if decide (0xE0 ≤ b) && decide (b ≤ 0xEF) then
    match rest with
    | b1 :: rest1 =>
      if (if b = 0xE0 then decide (0xA0 ≤ b1) && decide (b1 ≤ 0xBF)
          else if b = 0xED then decide (0x80 ≤ b1) && decide (b1 ≤ 0x9F)
          else utf8Cont b1) then
        match rest1 with
        | b2 :: _ =>
          if utf8Cont b2 then
            (some (Char.ofNat ((b - 0xE0) * 0x1000 + (b1 - 0x80) * 0x40 + (b2 - 0x80))), 2)
          else (none, 1)
        | [] => (none, 1)
      else (none, 0)
    | [] => (none, 0)
  else if decide (0xF0 ≤ b) && decide (b ≤ 0xF4) then
    match rest with
    | b1 :: rest1 =>
      if (if b = 0xF0 then decide (0x90 ≤ b1) && decide (b1 ≤ 0xBF)
          else if b = 0xF4 then decide (0x80 ≤ b1) && decide (b1 ≤ 0x8F)
          else utf8Cont b1) then
        match rest1 with
        | b2 :: rest2 =>
          if utf8Cont b2 then
            match rest2 with
            | b3 :: _ =>
              if utf8Cont b3 then
                (some (Char.ofNat ((b - 0xF0) * 0x40000 + (b1 - 0x80) * 0x1000 +
                  (b2 - 0x80) * 0x40 + (b3 - 0x80))), 3)
              else (none, 2)
            | [] => (none, 2)
          else (none, 1)
        | [] => (none, 1)
      else (none, 0)
    | [] => (none, 0)
  else (none, 0)

/-- Implements `bytes.decode("utf-8", errors="ignore")`: decode UTF-8, skipping the
maximal subpart of every ill-formed subsequence (CPython's behaviour for the
`ignore` error handler).  Invalid bytes are dropped, not replaced. -/
def utf8DecodeIgnore : List Nat → List Char
  | [] => []
  | b :: rest =>
    match utf8Step b rest with
    | (some c, k) => c :: utf8DecodeIgnore (rest.drop k)
    | (none, k) => utf8DecodeIgnore (rest.drop k)
termination_by l => l.length
decreasing_by all_goals simp [List.length_drop, List.length_cons]; omega

/-- The decoded text a pattern is applied to. -/
def decodeIgnore (bs : List Nat) : String := ⟨utf8DecodeIgnore bs⟩

/-- Model of a compiled `re.Pattern`: the pattern's source text
(`pattern.pattern`) together with the abstract behaviour of
`pattern.search` on decoded text (`true` iff a match is found). -/
structure RePattern where
  source : String
  searchFn : String → Bool

/-- Python's substring operator `needle in hay` on `str`. -/
def pyIn (needle hay : String) : Bool := decide (needle.toList <:+: hay.toList)

/-- The fixed list `dangerous` of `FileSearchEngine._is_dangerous_pattern`. -/
def dangerousShapes : List String :=
  ["[\\s\\S]*", "[\\s\\S]+", "[\\w\\W]*", "[\\w\\W]+", "[\\d\\D]*", "[\\d\\D]+",
   ".*?", ".+?"]

/-- Models `FileSearchEngine._is_dangerous_pattern`: the compiled pattern's source
text contains one of the fixed backtracking-risk shapes as a substring. -/
def isDangerousPattern (p : RePattern) : Bool :=
  dangerousShapes.any (fun danger => pyIn danger p.source)

/-- The `safe_limit` of `_search_in_file`: 5 MiB, or 1 MiB for dangerous
patterns. -/
def safeLimitOf (p : RePattern) : Nat :=
  if isDangerousPattern p then 1 * 1024 * 1024 else 5 * 1024 * 1024

/-- The `chunk_size` of `_search_in_file`: 5 MiB, or 512 KiB for dangerous
patterns. -/
def chunkSizeOf (p : RePattern) : Nat :=
  if isDangerousPattern p then 512 * 1024 else 5 * 1024 * 1024

/-- A regular file: its byte content and its modification time
(`os.stat(...).st_mtime`, via `datetime.fromtimestamp`, modelled as `Int`). -/
structure FileData where
  content : List Nat
  mtime : Int

/-- The I/O behaviour of one path: the regular file behind it (if any), plus
an optional injected exception per primitive operation. -/
structure FileEnv where
  file : Option FileData
  statFault : Option IOErr
  getsizeFault : Option IOErr
  readHeadFault : Option IOErr
  fullReadFault : Option IOErr
  readRestFault : Option IOErr
  mmapFault : Option IOErr

/-- A fault-free environment for an optional file. -/
def pureEnv (f : Option FileData) : FileEnv := ⟨f, none, none, none, none, none, none⟩

/-- Models `os.path.isfile` (returns `False` rather than raising). -/
def FileEnv.isfile (env : FileEnv) : Bool := env.file.isSome

/-- Models `os.stat`. -/
def FileEnv.statE (env : FileEnv) : Except IOErr FileData :=
  match env.statFault with
  | some e => .error e
  | none =>
    match env.file with
    | some fd => .ok fd
    | none => .error .osError

/-- Models `os.path.getsize`. -/
def FileEnv.getsizeE (env : FileEnv) : Except IOErr Nat :=
  match env.getsizeFault with
  | some e => .error e
  | none =>
    match env.file with
    | some fd => .ok fd.content.length
    | none => .error .osError

/-- Models `open(path, "rb")` followed by `f.read(8192)`. -/
def FileEnv.readHeadE (env : FileEnv) : Except IOErr (List Nat) :=
  match env.readHeadFault with
  | some e => .error e
  | none =>
    match env.file with
    | some fd => .ok (fd.content.take 8192)
    | none => .error .osError

/-- Models `open(path, "rb")` followed by `f.read()` (whole content). -/
def FileEnv.fullReadE (env : FileEnv) : Except IOErr (List Nat) :=
  match env.fullReadFault with
  | some e => .error e
  | none =>
    match env.file with
    | some fd => .ok fd.content
    | none => .error .osError

/-- Models `f.read()` after `f.read(8192)` on the same handle: the bytes after the
first 8 KiB. -/
def FileEnv.readRestE (env : FileEnv) : Except IOErr (List Nat) :=
  match env.readRestFault with
  | some e => .error e
  | none =>
    match env.file with
    | some fd => .ok (fd.content.drop 8192)
    | none => .error .osError

/-- Models `mmap.mmap(f.fileno(), 0, access=ACCESS_READ)`: the whole content, sliced
purely afterwards. -/
def FileEnv.mmapE (env : FileEnv) : Except IOErr (List Nat) :=
  match env.mmapFault with
  | some e => .error e
  | none =>
    match env.file with
    | some fd => .ok fd.content
    | none => .error .osError

/-- Models `GPUSearchConfig`. -/
structure GpuConfig where
  batchSize : Nat
  minFileSizeForGpu : Nat
  maxPatternComplexity : Nat
  useGpu : Bool
  threadsPerBlock : Nat

/-- The dataclass defaults of `GPUSearchConfig` (64 MiB, 1 MiB, 10, 256). -/
def defaultGpuConfig (useGpu : Bool) : GpuConfig :=
  ⟨64 * 1024 * 1024, 1024 * 1024, 10, useGpu, 256⟩

/-- Models `GPUPatternMatcher`: its config, whether a GPU is actually available, and
the abstract CUDA execution (the CuPy/Numba device work of `_search_cupy` /
`_search_numba`, which may fault). -/
structure GpuMatcher where
  config : GpuConfig
  gpuAvailable : Bool
  device : Option (List Nat → RePattern → Except Unit Bool)

/-- Python `str.count` over single characters, used by the complexity metric. -/
def countChar (s : String) (c : Char) : Nat := s.toList.count c

/-- The constructs `is_pattern_gpu_friendly` rejects outright. -/
def gpuUnfriendlyMarkers : List String := ["\\1", "\\2", "(?=", "(?!", "(?<", "(?(", "\\g<"]

/-- Models `GPUPatternMatcher.is_pattern_gpu_friendly`. -/
def isPatternGpuFriendly (m : GpuMatcher) (pat : String) : Bool :=
  if gpuUnfriendlyMarkers.any (fun x => pyIn x pat) then false
  else
    decide (countChar pat '(' + countChar pat '[' + countChar pat '\x7b' +
      countChar pat '\\' / 2 ≤ m.config.maxPatternComplexity)

/-- Models `GPUPatternMatcher._search_cpu`: decode leniently, apply the pattern
(the surrounding `try` cannot fire in the model: decoding and matching are
total). -/
def searchCpuText (text : List Nat) (p : RePattern) : Bool :=
  p.searchFn (decodeIgnore text)

/-- Models `GPUPatternMatcher.search_in_text_gpu`: small texts and GPU-unfriendly
patterns fall back to `_search_cpu`; otherwise the CuPy/Numba device work
runs (abstracted as `m.device`), falling back to `_search_cpu` on any
exception or when neither library is present. -/
def searchInTextGpu (m : GpuMatcher) (text : List Nat) (p : RePattern) : Bool :=
  if !m.gpuAvailable || text.length < m.config.minFileSizeForGpu then
    searchCpuText text p
  else if !isPatternGpuFriendly m p.source then
    searchCpuText text p
  else
    match m.device with
    | some dev =>
      match dev text p with
      | .ok found => found
      | .error _ => searchCpuText text p
    | none => searchCpuText text p

/-- Models `HybridSearchEngine` (its `stats` bookkeeping is a side effect and not
modelled). -/
structure HybridEngine where
  config : GpuConfig
  gpuMatcher : GpuMatcher

/-- Does `except (PermissionError, OSError, UnicodeDecodeError, ValueError)`
catch `e`? -/
def catchesFour (e : IOErr) : Bool :=
  match e with
  | .permissionError | .osError | .unicodeDecodeError | .valueError => true
  | .otherError => false

/-- The `try` body of `HybridSearchEngine.search_in_file`. -/
def hybridSearchInFileBody (h : HybridEngine) (env : FileEnv) (p : RePattern) :
    Except IOErr Bool :=
  match env.getsizeE with
  | .error e => .error e
  | .ok fileSize =>
    if fileSize > 100 * 1024 * 1024 then .ok false
    else
      let useGpu := h.config.useGpu && decide (fileSize ≥ h.config.minFileSizeForGpu) &&
        h.gpuMatcher.gpuAvailable
      match env.readHeadE with
      | .error e => .error e
      | .ok chunk =>
        if chunk.contains 0 then .ok false
        else if fileSize < 1024 * 1024 then
          -- `text = chunk if len(chunk) == file_size else f.read()` under a bare
          -- `except: return False`; note `f.read()` yields only the bytes after
          -- the first 8 KiB already consumed from the handle.
          match (if chunk.length = fileSize then Except.ok chunk else env.readRestE) with
          | .error _ => .ok false
          | .ok text => .ok (p.searchFn (decodeIgnore text))
        else
          match env.mmapE with
          | .error e => .error e
          | .ok data =>
            if useGpu then .ok (searchInTextGpu h.gpuMatcher data p)
            else .ok (p.searchFn (decodeIgnore data))

/-- Models `HybridSearchEngine.search_in_file`: the body under
`except (PermissionError, OSError, UnicodeDecodeError, ValueError): return
False`; other exceptions propagate to the caller. -/
def hybridSearchInFile (h : HybridEngine) (env : FileEnv) (p : RePattern) :
    Except IOErr Bool :=
  match hybridSearchInFileBody h env p with
  | .error e => if catchesFour e then .ok false else .error e
  | r => r

/-- One `FileSearchEngine` instance: its stop flag (constant for the duration
of one call in this model), whether GPU mode was requested, and the hybrid
engine held when it was. -/
structure Eng where
  stopFlag : Bool
  useGpu : Bool
  gpuEngine : Option HybridEngine

/-- A plain CPU engine with no stop request. -/
def cpuEng : Eng := ⟨false, false, none⟩

/-- Python `range(0, stop, step)`. -/
def pyRange (stop step : Nat) : List Nat :=
  List.range' 0 ((stop + step - 1) / step) step

/-- The chunked mmap scan loop of `_search_in_file`: for each chunk offset,
re-read from 1 KiB before the offset (`start = max(0, offset - overlap)`,
which over ℕ is truncated subtraction) up to `min(file_size, offset +
chunk_size)`, decode leniently, and return true on the first hit; a
per-chunk matching fault (`except ... continue`) cannot fire in the model
since matching is total. -/
def chunkLoop (stopFlag : Bool) (data : List Nat) (fileSize chunkSize : Nat)
    (p : RePattern) : List Nat → Bool
  | [] => false
  | offset :: rest =>
    if stopFlag then false
    else
      let start := offset - 1024
      let stop := min fileSize (offset + chunkSize)
      let chunkBytes := (data.drop start).take (stop - start)
      if p.searchFn (decodeIgnore chunkBytes) then true
      else chunkLoop stopFlag data fileSize chunkSize p rest

/-- The `try` body of `FileSearchEngine._search_in_file`: stop-flag check,
GPU delegation, 100 MiB ceiling, binary sniff on the first 8 KiB, small-file
direct match, tiered full read, then the overlapped chunk scan. -/
def searchInFileBody (eng : Eng) (env : FileEnv) (p : RePattern) : Except IOErr Bool :=
  if eng.stopFlag then .ok false
  else
    match (if eng.useGpu then eng.gpuEngine else none) with
    | some h => hybridSearchInFile h env p
    | none =>
      match env.getsizeE with
      | .error e => .error e
      | .ok fileSize =>
        if fileSize > 100 * 1024 * 1024 then .ok false
        else
          match env.readHeadE with
          | .error e => .error e
          | .ok chunk =>
            if chunk.contains 0 then .ok false
            else if chunk.length < 8192 then
              .ok (p.searchFn (decodeIgnore chunk))
            else if fileSize ≤ safeLimitOf p then
              match env.fullReadE with
              | .error e => .error e
              | .ok content =>
                if eng.stopFlag then .ok false
                else .ok (p.searchFn (decodeIgnore content))
            else
              match env.mmapE with
              | .error e => .error e
              | .ok data =>
                .ok (chunkLoop eng.stopFlag data fileSize (chunkSizeOf p) p
                  (pyRange fileSize (chunkSizeOf p)))

/-- Models `FileSearchEngine._search_in_file`: the body under its two `except`
clauses, both of which return `False` — no exception ever escapes the
content scan. -/
def searchInFile (eng : Eng) (env : FileEnv) (p : RePattern) : Bool :=
  match searchInFileBody eng env p with
  | .ok found => found
  | .error _ => false

/-- The Python library functions `_check_file` leans on, abstracted:
`fnmatch.fnmatch`, `os.path.basename`, and `os.path.splitext(...)[1]`. -/
structure PyLib where
  fnmatch : String → String → Bool
  basename : String → String
  splitextExt : String → String

/-- Python `str.strip(".")`: remove leading and trailing dots. -/
def stripDots (s : String) : String :=
  ⟨((s.toList.dropWhile (· = '.')).reverse.dropWhile (· = '.')).reverse⟩

/-- The name check of `_check_file`: `name_regex.search` when regex naming is
in effect and a compiled name regex exists, otherwise an `fnmatch` wildcard
test (both sides lowercased unless case sensitive), with `"*"` matching
everything. -/
def namePasses (lib : PyLib) (useRegexName : Bool) (nameRegex : Option RePattern)
    (namePattern : String) (caseSensitive : Bool) (filename : String) : Bool :=
  match (if useRegexName then nameRegex else none) with
  | some nr => nr.searchFn filename
  | none =>
    if namePattern ≠ "*" then
      if caseSensitive then lib.fnmatch filename namePattern
      else lib.fnmatch filename.toLower namePattern.toLower
    else true

/-- The extension check of `_check_file`: when the (Python-truthy) extension
list is present, the file's lowercased dot-stripped extension must be in
it. -/
def extPasses (lib : PyLib) (extensions : Option (List String)) (filename : String) : Bool :=
  match extensions with
  | some exts =>
    if exts.isEmpty then true
    else exts.contains (stripDots (lib.splitextExt filename).toLower)
  | none => true

/-- The size check of `_check_file`: `if min_size and file_size < min_size`
then reject; `if max_size and file_size > max_size` then reject (`0` and
`None` are falsy). -/
def sizePasses (minSize : Nat) (maxSize : Option Nat) (fileSize : Nat) : Bool :=
  if minSize ≠ 0 ∧ fileSize < minSize then false
  else
    match maxSize with
    | some mx => if mx ≠ 0 ∧ fileSize > mx then false else true
    | none => true

/-- The modification-time check of `_check_file`: reject when modified before
`modified_after` or after `modified_before` (absent bounds are falsy). -/
def mtimePasses (modifiedAfter modifiedBefore : Option Int) (fileModified : Int) : Bool :=
  (match modifiedAfter with
   | some ma => if fileModified < ma then false else true
   | none => true) &&
  (match modifiedBefore with
   | some mb => if fileModified > mb then false else true
   | none => true)

/-- Models `SearchResult`. -/
structure SearchResult where
  path : String
  size : Nat
  modified : Int
  matchReason : String
deriving DecidableEq, Repr

/-- The `try` body of `FileSearchEngine._check_file`: stop-flag check,
`os.path.isfile`, name check, extension check, one `os.stat` reused for the
size and date checks, then the content scan; any failed predicate returns
`None`. -/
def checkFileBody (lib : PyLib) (eng : Eng) (env : FileEnv) (filePath : String)
    (namePattern : String) (nameRegex : Option RePattern)
    (extensions : Option (List String)) (contentPattern : Option RePattern)
    (minSize : Nat) (maxSize : Option Nat)
    (modifiedAfter modifiedBefore : Option Int)
    (caseSensitive useRegexName : Bool) : Except IOErr (Option SearchResult) :=
  if eng.stopFlag then .ok none
  else if !env.isfile then .ok none
  else
    let filename := lib.basename filePath
    if !namePasses lib useRegexName nameRegex namePattern caseSensitive filename then .ok none
    else if !extPasses lib extensions filename then .ok none
    else
      match env.statE with
      | .error e => .error e
      | .ok fd =>
        let fileSize := fd.content.length
        let fileModified := fd.mtime
        if !sizePasses minSize maxSize fileSize then .ok none
        else if !mtimePasses modifiedAfter modifiedBefore fileModified then .ok none
        else
          match contentPattern with
          | some cp =>
            if !searchInFile eng env cp then .ok none
            else .ok (some ⟨filePath, fileSize, fileModified, "Содержимое файла"⟩)
          | none => .ok (some ⟨filePath, fileSize, fileModified, "Имя файла"⟩)

/-- Models `FileSearchEngine._check_file`: the body under
`except (PermissionError, OSError): return None`; any other exception
propagates into the worker's future. -/
def checkFile (lib : PyLib) (eng : Eng) (env : FileEnv) (filePath : String)
    (namePattern : String) (nameRegex : Option RePattern)
    (extensions : Option (List String)) (contentPattern : Option RePattern)
    (minSize : Nat) (maxSize : Option Nat)
    (modifiedAfter modifiedBefore : Option Int)
    (caseSensitive useRegexName : Bool) : Except IOErr (Option SearchResult) :=
  match checkFileBody lib eng env filePath namePattern nameRegex extensions contentPattern
      minSize maxSize modifiedAfter modifiedBefore caseSensitive useRegexName with
  | .error .permissionError => .ok none
  | .error .osError => .ok none
  | r => r

/-- One invocation of the progress callback:
`(result-or-None, processed, total)`. -/
abbrev ProgressEvent := Option SearchResult × Nat × Nat

/-- The `as_completed` loop of `FileSearchEngine.search`, over the
completion-ordered worker outcomes (a future that raised is an `.error`,
absorbed by `except Exception: pass`): collects results, fires the callback
once per produced result with the pre-increment `processed` count, and fires
a `None` heartbeat on every 100th completion after incrementing. -/
def searchLoop (stopFlag : Bool) (total : Nat) :
    List (Except IOErr (Option SearchResult)) → Nat → List SearchResult × List ProgressEvent
  | [], _ => ([], [])
  | outcome :: rest, processed =>
    if stopFlag then ([], [])
    else
      let this : List SearchResult × List ProgressEvent :=
        match outcome with
        | .ok (some r) => ([r], [(some r, processed, total)])
        | .ok none => ([], [])
        | .error _ => ([], [])
      let processed1 := processed + 1
      let heart : List ProgressEvent :=
        if processed1 % 100 = 0 then [(none, processed1, total)] else []
      let next := searchLoop stopFlag total rest processed1
      (this.1 ++ next.1, this.2 ++ heart ++ next.2)

/-- The content-pattern compilation step of `search`: a Python-truthy
`content_regex` is compiled with `re.IGNORECASE` unless case sensitive;
`re.error` is re-raised as `ValueError` with the message
`"Ошибка в регулярном выражении: " + str(e)`. -/
def compileContent (compile : String → Bool → Except String RePattern)
    (contentRegex : Option String) (caseSensitive : Bool) : Except String (Option RePattern) :=
  match contentRegex with
  | some cr =>
    if cr ≠ "" then
      match compile cr (!caseSensitive) with
      | .ok p => .ok (some p)
      | .error e => .error ("Ошибка в регулярном выражении: " ++ e)
    else .ok none
  | none => .ok none

/-- The name-regex compilation step of `search`: compiled only when
`use_regex_name` is set and the pattern is not `"*"`; `re.error` is
re-raised as `ValueError` with the message
`"Ошибка в регулярном выражении имени: " + str(e)`. -/
def compileNameRegex (compile : String → Bool → Except String RePattern)
    (namePattern : String) (useRegexName caseSensitive : Bool) :
    Except String (Option RePattern) :=
  if useRegexName ∧ namePattern ≠ "*" then
    match compile namePattern (!caseSensitive) with
    | .ok p => .ok (some p)
    | .error e => .error ("Ошибка в регулярном выражении имени: " ++ e)
  else .ok none

/-- The extension normalization of `search`: when the list is Python-truthy,
keep entries whose whitespace-strip is nonempty and lowercase-then-dot-strip
them; otherwise leave the argument untouched. -/
def normalizeExtensions (extensions : Option (List String)) : Option (List String) :=
  match extensions with
  | some exts =>
    if !exts.isEmpty then
      some ((exts.filter (fun ext => ext.trim ≠ "")).map (fun ext => stripDots ext.toLower))
    else extensions
  | none => none

/-- Models `FileSearchEngine.search`: compile the content pattern, compile the name
regex, normalize extensions, then dispatch every candidate of the
materialized walk (`filesToCheck`, with per-path I/O behaviour `envOf`) and
run the completion loop.  A compilation failure raises `ValueError` before
any walk or dispatch: the result is an `.error` that does not depend on
`envOf` or `filesToCheck`. -/
def search (lib : PyLib) (compile : String → Bool → Except String RePattern)
    (eng : Eng) (envOf : String → FileEnv) (filesToCheck : List String)
    (namePattern : String) (extensions : Option (List String))
    (contentRegex : Option String) (minSize : Nat) (maxSize : Option Nat)
    (modifiedAfter modifiedBefore : Option Int)
    (caseSensitive useRegexName : Bool) :
    Except String (List SearchResult × List ProgressEvent) :=
  match compileContent compile contentRegex caseSensitive with
  | .error msg => .error msg
  | .ok contentPattern =>
    match compileNameRegex compile namePattern useRegexName caseSensitive with
    | .error msg => .error msg
    | .ok nameRegex =>
      let exts := normalizeExtensions extensions
      let outcomes := filesToCheck.map (fun fp =>
        checkFile lib eng (envOf fp) fp namePattern nameRegex exts contentPattern
          minSize maxSize modifiedAfter modifiedBefore caseSensitive useRegexName)
      .ok (searchLoop eng.stopFlag filesToCheck.length outcomes 0)



/-! ### Basic facts about the embedding -/

lemma contains_zero_eq_false_of_pos {l : List Nat} (h : ∀ x ∈ l, 0 < x) :
    l.contains 0 = false := by
  have h0 : 0 ∉ l := fun hm => by have := h 0 hm; omega
  simpa using h0

lemma utf8Step_ascii {b : Nat} (hb : b < 128) (rest : List Nat) :
    utf8Step b rest = (some (Char.ofNat b), 0) := by
  simp [utf8Step, hb]

lemma utf8Step_invalid {b : Nat} (hb : 0xF5 ≤ b) (rest : List Nat) :
    utf8Step b rest = (none, 0) := by
  have h1 : ¬ b < 0x80 := by omega
  have h2 : ¬ b ≤ 0xDF := by omega
  have h3 : ¬ b ≤ 0xEF := by omega
  have h4 : ¬ b ≤ 0xF4 := by omega
  simp [utf8Step, h1, h2, h3, h4]

/-- Pure-ASCII bytes decode to themselves. -/
lemma utf8DecodeIgnore_ascii {l : List Nat} (h : ∀ x ∈ l, x < 128) :
    utf8DecodeIgnore l = l.map Char.ofNat := by
  induction l with
  | nil => simp [utf8DecodeIgnore]
  | cons b rest ih =>
    have hb : b < 128 := h b (by simp)
    rw [utf8DecodeIgnore, utf8Step_ascii hb]
    simp only [List.drop_zero, List.map_cons]
    rw [ih (fun x hx => h x (List.mem_cons_of_mem _ hx))]

/-- An invalid lead byte between an ASCII fragment and anything else is
dropped: the decoded fragments are joined with nothing in between. -/
lemma utf8DecodeIgnore_append_invalid {l1 l2 : List Nat} {b : Nat}
    (h1 : ∀ x ∈ l1, x < 128) (hb : 0xF5 ≤ b) :
    utf8DecodeIgnore (l1 ++ b :: l2) = l1.map Char.ofNat ++ utf8DecodeIgnore l2 := by
  induction l1 with
  | nil =>
    rw [List.nil_append, utf8DecodeIgnore, utf8Step_invalid hb]
    simp only [List.drop_zero, List.map_nil, List.nil_append]
  | cons a rest ih =>
    have ha : a < 128 := h1 a (by simp)
    rw [List.cons_append, utf8DecodeIgnore, utf8Step_ascii ha]
    simp only [List.drop_zero, List.map_cons, List.cons_append]
    rw [ih (fun x hx => h1 x (List.mem_cons_of_mem _ hx))]

/-- A `[start, stop)` slice sits inside the underlying list as an infix. -/
lemma drop_take_isInfix (l : List Nat) (s n : Nat) :
    (l.drop s).take n <:+: l :=
  ⟨l.take s, (l.drop s).drop n, by
    rw [List.append_assoc, List.take_append_drop, List.take_append_drop]⟩

/-- A smaller byte range is an infix of any enclosing byte range of the same
list. -/
lemma slice_isInfix {l : List Nat} {s e i j : Nat} (hsi : s ≤ i) (hij : i ≤ j)
    (hje : j ≤ e) :
    (l.drop i).take (j - i) <:+: (l.drop s).take (e - s) := by
  have hdrop : ((l.drop s).take (e - s)).drop (i - s) = (l.drop i).take (e - i) := by
    rw [List.drop_take, List.drop_drop]
    congr 1
    · omega
    · congr 1; omega
  have htake : (((l.drop s).take (e - s)).drop (i - s)).take (j - i)
      = (l.drop i).take (j - i) := by
    rw [hdrop, List.take_take]
    congr 1
    omega
  refine ⟨((l.drop s).take (e - s)).take (i - s),
    (((l.drop s).take (e - s)).drop (i - s)).drop (j - i), ?_⟩
  rw [← htake]
  rw [List.append_assoc, List.take_append_drop, List.take_append_drop]

/-- The chunk loop reports a hit as soon as any listed offset's overlapped
window matches. -/
lemma chunkLoop_hit {data : List Nat} {fileSize chunkSize : Nat} {p : RePattern}
    {offs : List Nat} {off : Nat} (hmem : off ∈ offs)
    (hhit : p.searchFn (decodeIgnore ((data.drop (off - 1024)).take
      (min fileSize (off + chunkSize) - (off - 1024)))) = true) :
    chunkLoop false data fileSize chunkSize p offs = true := by
  induction offs with
  | nil => cases hmem
  | cons o rest ih =>
    simp only [chunkLoop, Bool.false_eq_true, if_false]
    rcases List.mem_cons.mp hmem with rfl | hmem'
    · simp [hhit]
    · split
      · rfl
      · exact ih hmem'

/-- The CPU content scan on a clean, fault-free, non-binary file of at least
8 KiB: full read up to the safe limit, overlapped chunk scan beyond it. -/
lemma searchInFile_tiers (p : RePattern) (fd : FileData)
    (h8 : 8192 ≤ fd.content.length) (h100 : fd.content.length ≤ 100 * 1024 * 1024)
    (hnn : (fd.content.take 8192).contains 0 = false) :
    searchInFile cpuEng (pureEnv (some fd)) p =
      if fd.content.length ≤ safeLimitOf p then p.searchFn (decodeIgnore fd.content)
      else chunkLoop false fd.content fd.content.length (chunkSizeOf p) p
        (pyRange fd.content.length (chunkSizeOf p)) := by
  have hlen : (fd.content.take 8192).length = 8192 := by
    simp [List.length_take]; omega
  have hnlt : ¬ (fd.content.take 8192).length < 8192 := by omega
  have hng : ¬ fd.content.length > 100 * 1024 * 1024 := by omega
  simp only [searchInFile, searchInFileBody, cpuEng, FileEnv.getsizeE, FileEnv.readHeadE,
    FileEnv.fullReadE, FileEnv.mmapE, pureEnv, Bool.false_eq_true, if_false, hnn, hnlt, hng]
  split
  all_goals rename_i v heq
  all_goals split at heq <;> simp_all
  all_goals rw [if_neg (by omega)]

@[simp] lemma pureEnv_file (f : Option FileData) : (pureEnv f).file = f := rfl

@[simp] lemma isfile_pureEnv (f : Option FileData) : (pureEnv f).isfile = f.isSome := rfl

@[simp] lemma statE_pureEnv_some (fd : FileData) :
    (pureEnv (some fd)).statE = .ok fd := rfl

/-- Unfolding one completion of the loop. -/
lemma searchLoop_cons (total : Nat) (o : Except IOErr (Option SearchResult))
    (rest : List (Except IOErr (Option SearchResult))) (k : Nat) :
    searchLoop false total (o :: rest) k =
      ((match o with
        | Except.ok (some r) => [r]
        | _ => []) ++ (searchLoop false total rest (k + 1)).1,
       (match o with
        | Except.ok (some r) => [((some r : Option SearchResult), k, total)]
        | _ => []) ++
       ((if (k + 1) % 100 = 0 then [((none : Option SearchResult), k + 1, total)] else []) ++
        (searchLoop false total rest (k + 1)).2)) := by
  cases o with
  | error e => rfl
  | ok oo =>
    cases oo with
    | none => rfl
    | some r => rfl

/-- The result half of the completion loop: every completion is processed,
faulted futures and non-matches contribute nothing, and the loop runs to the
end of the outcome list. -/
lemma searchLoop_results (total : Nat)
    (outs : List (Except IOErr (Option SearchResult))) : ∀ k,
    (searchLoop false total outs k).1 = outs.filterMap (fun o =>
      match o with
      | .ok (some r) => some r
      | _ => none) := by
  induction outs with
  | nil => intro k; rfl
  | cons o rest ih =>
    intro k
    rw [searchLoop_cons, List.filterMap_cons]
    cases o with
    | error e =>
      show ([] : List SearchResult) ++ (searchLoop false total rest (k + 1)).1 = _
      rw [List.nil_append]
      exact ih (k + 1)
    | ok oo =>
      cases oo with
      | none =>
        show ([] : List SearchResult) ++ (searchLoop false total rest (k + 1)).1 = _
        rw [List.nil_append]
        exact ih (k + 1)
      | some r =>
        show [r] ++ (searchLoop false total rest (k + 1)).1 = _
        rw [List.singleton_append, ih (k + 1)]

lemma flatMap_congr_mem {α β : Type} {l : List α} {f g : α → List β}
    (h : ∀ a ∈ l, f a = g a) : l.flatMap f = l.flatMap g := by
  induction l with
  | nil => rfl
  | cons x xs ih =>
    rw [List.flatMap_cons, List.flatMap_cons, h x (by simp),
      ih (fun a ha => h a (List.mem_cons_of_mem _ ha))]

/-- The event half of the completion loop, as a closed form over completion
indices, starting the processed counter at `k`. -/
lemma searchLoop_events (total : Nat)
    (outs : List (Except IOErr (Option SearchResult))) : ∀ k,
    (searchLoop false total outs k).2 = (List.range outs.length).flatMap (fun i =>
      (match outs[i]? with
       | some (.ok (some r)) => [((some r : Option SearchResult), k + i, total)]
       | _ => []) ++
      (if (k + i + 1) % 100 = 0 then [((none : Option SearchResult), k + i + 1, total)]
       else [])) := by
  induction outs with
  | nil => intro k; rfl
  | cons o rest ih =>
    intro k
    rw [List.length_cons, List.range_succ_eq_map, List.flatMap_cons, List.flatMap_map,
      searchLoop_cons]
    have htail : (List.range rest.length).flatMap (fun a =>
        (match (o :: rest)[Nat.succ a]? with
         | some (.ok (some r)) => [((some r : Option SearchResult), k + Nat.succ a, total)]
         | _ => []) ++
        (if (k + Nat.succ a + 1) % 100 = 0 then
          [((none : Option SearchResult), k + Nat.succ a + 1, total)] else [])) =
        (List.range rest.length).flatMap (fun i =>
        (match rest[i]? with
         | some (.ok (some r)) => [((some r : Option SearchResult), (k + 1) + i, total)]
         | _ => []) ++
        (if ((k + 1) + i + 1) % 100 = 0 then
          [((none : Option SearchResult), (k + 1) + i + 1, total)] else [])) := by
      refine flatMap_congr_mem (fun a _ => ?_)
      have h1 : k + Nat.succ a = (k + 1) + a := by omega
      rw [List.getElem?_cons_succ, h1]
    rw [htail, ih (k + 1), List.append_assoc, List.getElem?_cons_zero]
    cases o with
    | error e => rfl
    | ok oo =>
      cases oo with
      | none => rfl
      | some r => rfl

/-- Evaluates `_check_file` on a fault-free path, written as the nested decision the
code performs: the conjunctive cascade over the five predicates. -/
lemma checkFile_pure (lib : PyLib) (eng : Eng) (f : Option FileData) (fp : String)
    (np : String) (nr : Option RePattern) (exts : Option (List String))
    (cp : Option RePattern) (minS : Nat) (maxS : Option Nat)
    (ma mb : Option Int) (cs urn : Bool) (hstop : eng.stopFlag = false) :
    checkFile lib eng (pureEnv f) fp np nr exts cp minS maxS ma mb cs urn =
      .ok (match f with
        | none => none
        | some fd =>
          if namePasses lib urn nr np cs (lib.basename fp)
              && extPasses lib exts (lib.basename fp)
              && sizePasses minS maxS fd.content.length
              && mtimePasses ma mb fd.mtime then
            match cp with
            | some pat =>
              if searchInFile eng (pureEnv f) pat then
                some ⟨fp, fd.content.length, fd.mtime, "Содержимое файла"⟩
              else none
            | none => some ⟨fp, fd.content.length, fd.mtime, "Имя файла"⟩
          else none) := by
  cases f with
  | none =>
    simp [checkFile, checkFileBody, hstop]
  | some fd =>
    cases hn : namePasses lib urn nr np cs (lib.basename fp) <;>
      cases he : extPasses lib exts (lib.basename fp) <;>
        cases hs : sizePasses minS maxS fd.content.length <;>
          cases hm : mtimePasses ma mb fd.mtime <;>
            simp only [checkFile, checkFileBody, hstop, hn, he, hs, hm, isfile_pureEnv,
              statE_pureEnv_some, Option.isSome_some, Bool.not_true, Bool.not_false,
              Bool.false_eq_true, if_false, if_true, Bool.true_and, Bool.false_and,
              Bool.and_true, Bool.and_false, Bool.and_self, ite_true, ite_false] <;>
      try rfl
    cases cp with
    | none => rfl
    | some pat =>
      cases hsf : searchInFile eng (pureEnv (some fd)) pat <;> simp [hsf]

lemma matchEvent_congr {oc : Option (Except IOErr (Option SearchResult))} {a b total : Nat}
    (hab : a = b) :
    (match oc with
     | some (.ok (some r)) => [((some r : Option SearchResult), a, total)]
     | _ => ([] : List ProgressEvent)) =
    (match oc with
     | some (.ok (some r)) => [((some r : Option SearchResult), b, total)]
     | _ => ([] : List ProgressEvent)) := by
  subst hab; rfl

/-- Claim C4: a file whose first 8 KiB of bytes contains a NUL byte is never
content-matched: `_search_in_file` returns false for every pattern, every
engine configuration (CPU or GPU) and every fault pattern, regardless of the
bytes beyond the first 8 KiB. -/
theorem C4_binary_exclusion (eng : Eng) (env : FileEnv) (p : RePattern) (fd : FileData)
    (hf : env.file = some fd) (h0 : 0 ∈ fd.content.take 8192) :
    searchInFile eng env p = false := by
  have hcont : (fd.content.take 8192).contains 0 = true := by simp [h0]
  obtain ⟨file, sF, gF, rHF, fF, rRF, mF⟩ := env
  simp only at hf
  subst hf
  cases hb : searchInFileBody eng ⟨some fd, sF, gF, rHF, fF, rRF, mF⟩ p with
  | error e => simp [searchInFile, hb]
  | ok b =>
    simp only [searchInFile, hb]
    simp only [searchInFileBody, hybridSearchInFile, hybridSearchInFileBody,
      FileEnv.getsizeE, FileEnv.readHeadE, FileEnv.mmapE, FileEnv.readRestE] at hb
    repeat' split at hb
    all_goals (cases gF <;> cases rHF <;> cases rRF <;> simp_all [catchesFour])

/-- Claim C4 witness: a tiny file whose single byte is NUL is rejected by the
content scan. -/
theorem C4_binary_exclusion_witness :
    searchInFile cpuEng (pureEnv (some ⟨[0], 0⟩)) ⟨"x", fun _ => true⟩ = false :=
  C4_binary_exclusion cpuEng (pureEnv (some ⟨[0], 0⟩)) ⟨"x", fun _ => true⟩ ⟨[0], 0⟩
    rfl (by decide)

/-- Claim C7: the completion loop fires the callback exactly once per
produced result, with the pre-increment processed count (the number of prior
completions) and the candidate total, and additionally fires a `None`
heartbeat on every 100th completion (in completion order) carrying the
number of completions so far, even when that completion produced no
result. -/
theorem C7_progress_callback_protocol (total : Nat)
    (outs : List (Except IOErr (Option SearchResult))) :
    (searchLoop false total outs 0).2 = (List.range outs.length).flatMap (fun i =>
      (match outs[i]? with
       | some (.ok (some r)) => [((some r : Option SearchResult), i, total)]
       | _ => []) ++
      (if (i + 1) % 100 = 0 then [((none : Option SearchResult), i + 1, total)]
       else [])) := by
  rw [searchLoop_events total outs 0]
  refine flatMap_congr_mem (fun i _ => ?_)
  have h1 : 0 + i + 1 = i + 1 := by omega
  rw [matchEvent_congr (Nat.zero_add i), h1]

/-- Claim C10: a zero bound disables the size filter (`max_size = 0` behaves
exactly like an absent bound, `min_size = 0` imposes no lower bound), and
positive bounds are inclusive at both ends. -/
theorem C10_zero_size_bounds :
    (∀ (lib : PyLib) (eng : Eng) (env : FileEnv) (fp np : String) (nr : Option RePattern)
       (exts : Option (List String)) (cp : Option RePattern) (minS : Nat)
       (ma mb : Option Int) (cs urn : Bool),
      checkFile lib eng env fp np nr exts cp minS (some 0) ma mb cs urn
        = checkFile lib eng env fp np nr exts cp minS none ma mb cs urn)
    ∧ (∀ s, sizePasses 0 none s = true)
    ∧ (∀ s mx, 0 < mx → sizePasses 0 (some mx) s = decide (s ≤ mx))
    ∧ (∀ a s, 0 < a → sizePasses a none s = decide (a ≤ s))
    ∧ (∀ a b, 0 < a → 0 < b → a ≤ b →
        sizePasses a (some b) a = true ∧ sizePasses a (some b) b = true) := by
  have hsz : ∀ minS s, sizePasses minS (some 0) s = sizePasses minS none s := by
    intro minS s
    simp [sizePasses]
  refine ⟨?_, ?_, ?_, ?_, ?_⟩
  · intro lib eng env fp np nr exts cp minS ma mb cs urn
    simp only [checkFile, checkFileBody, hsz]
  · intro s
    simp [sizePasses]
  · intro s mx hmx
    have hne : mx ≠ 0 := by omega
    by_cases h : s ≤ mx
    · simp [sizePasses, hne, h, Nat.not_lt.mpr h]
    · simp [sizePasses, hne, h, Nat.lt_of_not_le h]
  · intro a s ha
    have hne : a ≠ 0 := by omega
    by_cases h : a ≤ s
    · simp [sizePasses, hne, h, Nat.not_lt.mpr h]
    · simp [sizePasses, hne, h, Nat.lt_of_not_le h]
  · intro a b ha hb hab
    constructor
    · simp [sizePasses]
      omega
    · simp [sizePasses]
      omega

/-- Claim C10 witness: boundary sizes pass and a zero upper bound passes a
large file, at concrete inputs, via the theorem. -/
theorem C10_zero_size_bounds_witness :
    sizePasses 3 (some 7) 3 = true ∧ sizePasses 3 (some 7) 7 = true ∧
      sizePasses 0 (some 5) 9 = decide (9 ≤ 5) := by
  refine ⟨(C10_zero_size_bounds.2.2.2.2 3 7 (by decide) (by decide) (by decide)).1,
    (C10_zero_size_bounds.2.2.2.2 3 7 (by decide) (by decide) (by decide)).2,
    C10_zero_size_bounds.2.2.1 9 5 (by decide)⟩

/-- Claim C2: an invalid content regex (or an invalid name regex when regex
naming is in effect and the pattern is not `"*"`) makes `search` raise
`ValueError` whose message carries the underlying syntax error, independently
of the walked files and their I/O behaviour (so before any walk or dispatch,
with no partial search: no results and no callbacks); and when both patterns
compile, `search` completes without a hard failure. -/
theorem C2_invalid_pattern_start_failure (lib : PyLib)
    (compile : String → Bool → Except String RePattern) (eng : Eng)
    (envOf : String → FileEnv) (files : List String) (np : String)
    (exts : Option (List String)) (crx : Option String) (minS : Nat)
    (maxS : Option Nat) (ma mb : Option Int) (cs urn : Bool) :
    (∀ cr e, crx = some cr → cr ≠ "" → compile cr (!cs) = .error e →
      search lib compile eng envOf files np exts crx minS maxS ma mb cs urn
        = .error ("Ошибка в регулярном выражении: " ++ e))
    ∧ (∀ e cpc, compileContent compile crx cs = .ok cpc → urn = true → np ≠ "*" →
        compile np (!cs) = .error e →
        search lib compile eng envOf files np exts crx minS maxS ma mb cs urn
          = .error ("Ошибка в регулярном выражении имени: " ++ e))
    ∧ (∀ cpc nrc, compileContent compile crx cs = .ok cpc →
        compileNameRegex compile np urn cs = .ok nrc →
        ∃ out, search lib compile eng envOf files np exts crx minS maxS ma mb cs urn
          = .ok out) := by
  refine ⟨?_, ?_, ?_⟩
  · intro cr e hcrx hne hcomp
    subst hcrx
    simp [search, compileContent, hne, hcomp]
  · intro e cpc hcc hurn hnp hcomp
    simp [search, hcc, compileNameRegex, hurn, hnp, hcomp]
  · intro cpc nrc hcc hcn
    refine ⟨searchLoop eng.stopFlag files.length (files.map (fun fp =>
      checkFile lib eng (envOf fp) fp np nrc (normalizeExtensions exts) cpc
        minS maxS ma mb cs urn)) 0, ?_⟩
    simp [search, hcc, hcn]

/-- Claim C2 witness: with a compiler that rejects every pattern, `search`
surfaces the content-pattern error with the underlying message appended. -/
theorem C2_invalid_pattern_start_failure_witness :
    search ⟨fun _ _ => true, id, fun _ => ""⟩ (fun _ _ => .error "bad syntax") cpuEng
      (fun _ => pureEnv none) ["f"] "*" none (some "(") 0 none none none false false
      = .error ("Ошибка в регулярном выражении: " ++ "bad syntax") :=
  (C2_invalid_pattern_start_failure _ _ _ _ _ _ _ _ _ _ _ _ _ _).1 "(" "bad syntax"
    rfl (by decide) rfl

lemma safeLimitOf_le (p : RePattern) : safeLimitOf p ≤ 5 * 1024 * 1024 := by
  unfold safeLimitOf
  split <;> omega

lemma safeLimitOf_ge (p : RePattern) : 1024 * 1024 ≤ safeLimitOf p := by
  unfold safeLimitOf
  split <;> omega

/-- Claim C3: per-file I/O faults are absorbed.  A permission or OS error
raised by the stat step makes `_check_file` return `None`; any fault raised
by the size probe or the initial read makes `_search_in_file` return false;
a fault of any kind raised by the full read (when the full-read tier is the
one that runs) or by the mmap scan (when the chunked tier is the one that
runs) likewise yields false; and the completion loop of `search` processes
every listed completion, dropping faulted ones, so one faulted file never
aborts the rest of the search. -/
theorem C3_io_fault_absorption :
    (∀ (lib : PyLib) (eng : Eng) (env : FileEnv) (fp np : String) (nr : Option RePattern)
       (exts : Option (List String)) (cp : Option RePattern) (minS : Nat) (maxS : Option Nat)
       (ma mb : Option Int) (cs urn : Bool) (e : IOErr),
       e = .permissionError ∨ e = .osError → env.statFault = some e →
       checkFile lib eng env fp np nr exts cp minS maxS ma mb cs urn = .ok none)
    ∧ (∀ (eng : Eng) (env : FileEnv) (p : RePattern) (e : IOErr),
        env.getsizeFault = some e → searchInFile eng env p = false)
    ∧ (∀ (eng : Eng) (env : FileEnv) (p : RePattern) (e : IOErr),
        env.readHeadFault = some e → searchInFile eng env p = false)
    ∧ (∀ (eng : Eng) (env : FileEnv) (p : RePattern) (fd : FileData) (e : IOErr),
        (if eng.useGpu then eng.gpuEngine else none) = none →
        env.file = some fd → env.getsizeFault = none → env.readHeadFault = none →
        8192 ≤ fd.content.length → fd.content.length ≤ safeLimitOf p →
        env.fullReadFault = some e → searchInFile eng env p = false)
    ∧ (∀ (eng : Eng) (env : FileEnv) (p : RePattern) (fd : FileData) (e : IOErr),
        (if eng.useGpu then eng.gpuEngine else none) = none →
        env.file = some fd → env.getsizeFault = none → env.readHeadFault = none →
        safeLimitOf p < fd.content.length → fd.content.length ≤ 100 * 1024 * 1024 →
        env.mmapFault = some e → searchInFile eng env p = false)
    ∧ (∀ (total : Nat) (outs : List (Except IOErr (Option SearchResult))),
        (searchLoop false total outs 0).1 = outs.filterMap (fun o =>
          match o with
          | .ok (some r) => some r
          | _ => none)) := by
  refine ⟨?_, ?_, ?_, ?_, ?_, ?_⟩
  · intro lib eng env fp np nr exts cp minS maxS ma mb cs urn e he hstat
    obtain ⟨file, sF, gF, rHF, fF, rRF, mF⟩ := env
    simp only at hstat
    subst hstat
    rcases he with rfl | rfl <;>
      (simp only [checkFile, checkFileBody, FileEnv.statE, FileEnv.isfile]
       repeat' split
       all_goals simp_all)
  · intro eng env p e hg
    obtain ⟨file, sF, gF, rHF, fF, rRF, mF⟩ := env
    simp only at hg
    subst hg
    cases hb : searchInFileBody eng ⟨file, sF, some e, rHF, fF, rRF, mF⟩ p with
    | error e' => simp [searchInFile, hb]
    | ok b =>
      simp only [searchInFile, hb]
      simp only [searchInFileBody, hybridSearchInFile, hybridSearchInFileBody,
        FileEnv.getsizeE, FileEnv.readHeadE, FileEnv.mmapE, FileEnv.readRestE] at hb
      repeat' split at hb
      all_goals (cases e <;> simp_all [catchesFour])
  · intro eng env p e hg
    obtain ⟨file, sF, gF, rHF, fF, rRF, mF⟩ := env
    simp only at hg
    subst hg
    cases hb : searchInFileBody eng ⟨file, sF, gF, some e, fF, rRF, mF⟩ p with
    | error e' => simp [searchInFile, hb]
    | ok b =>
      simp only [searchInFile, hb]
      simp only [searchInFileBody, hybridSearchInFile, hybridSearchInFileBody,
        FileEnv.getsizeE, FileEnv.readHeadE, FileEnv.mmapE, FileEnv.readRestE] at hb
      repeat' split at hb
      all_goals (cases gF <;> cases e <;> simp_all [catchesFour])
  · intro eng env p fd e heng hf hg hr h8 hlim hfull
    obtain ⟨file, sF, gF, rHF, fF, rRF, mF⟩ := env
    simp only at hf hg hr hfull
    subst hf
    subst hg
    subst hr
    subst hfull
    have hng : ¬ fd.content.length > 100 * 1024 * 1024 := by
      have := safeLimitOf_le p
      omega
    have hnlt : ¬ (fd.content.take 8192).length < 8192 := by
      simp [List.length_take]
      omega
    cases hb : searchInFileBody eng ⟨some fd, sF, none, none, some e, rRF, mF⟩ p with
    | error e' => simp [searchInFile, hb]
    | ok b =>
      simp only [searchInFile, hb]
      simp only [searchInFileBody, heng, FileEnv.getsizeE, FileEnv.readHeadE,
        FileEnv.mmapE, FileEnv.fullReadE] at hb
      repeat' split at hb
      all_goals simp_all
  · intro eng env p fd e heng hf hg hr hlim h100 hmm
    obtain ⟨file, sF, gF, rHF, fF, rRF, mF⟩ := env
    simp only at hf hg hr hmm
    subst hf
    subst hg
    subst hr
    subst hmm
    have hng : ¬ fd.content.length > 100 * 1024 * 1024 := by omega
    have hnlt : ¬ (fd.content.take 8192).length < 8192 := by
      have := safeLimitOf_ge p
      simp [List.length_take]
      omega
    have hnlim : ¬ fd.content.length ≤ safeLimitOf p := by omega
    cases hb : searchInFileBody eng ⟨some fd, sF, none, none, fF, rRF, some e⟩ p with
    | error e' => simp [searchInFile, hb]
    | ok b =>
      simp only [searchInFile, hb]
      simp only [searchInFileBody, heng, FileEnv.getsizeE, FileEnv.readHeadE,
        FileEnv.mmapE, FileEnv.fullReadE] at hb
      repeat' split at hb
      all_goals simp_all
  · intro total outs
    exact searchLoop_results total outs 0

/-- Claim C3 witness: a permission fault at the stat step yields `None` for
the file; a vanished-file fault at the size probe yields a false content
match; and a faulted worker leaves the neighbouring completions in the
result list. -/
theorem C3_io_fault_absorption_witness :
    checkFile ⟨fun _ _ => true, id, fun _ => ""⟩ cpuEng
      ⟨some ⟨[65], 0⟩, some .permissionError, none, none, none, none, none⟩
      "f" "*" none none none 0 none none none false false = .ok none
    ∧ searchInFile cpuEng ⟨some ⟨[65], 0⟩, none, some .osError, none, none, none, none⟩
        ⟨"A", fun _ => true⟩ = false
    ∧ (searchLoop false 2 [Except.error .otherError,
        Except.ok (some ⟨"f", 1, 0, "Имя файла"⟩)] 0).1 = [⟨"f", 1, 0, "Имя файла"⟩] := by
  refine ⟨C3_io_fault_absorption.1 _ _ _ _ _ _ _ _ _ _ _ _ _ _ .permissionError
      (Or.inl rfl) rfl,
    C3_io_fault_absorption.2.1 _ _ _ .osError rfl, ?_⟩
  rw [C3_io_fault_absorption.2.2.2.2.2 2 _]
  rfl

lemma resultOf_eq_some_iff (o : Except IOErr (Option SearchResult)) (r : SearchResult) :
    ((match o with
      | .ok (some r') => some r'
      | _ => none) = some r) ↔ o = .ok (some r) := by
  cases o with
  | error e => simp
  | ok oo => cases oo <;> simp

/-- Claim C1: `_check_file` on a fault-free path produces a result iff the
path is a regular file and the name, extension, size and mtime predicates
all pass and either no content pattern is configured or the content scan
matches; when any predicate fails the result is `None` (never an error);
and a result is in `search`'s result set iff some candidate path produces
it. -/
theorem C1_conjunctive_filter
    (lib : PyLib) (eng : Eng) (f : Option FileData) (fp np : String)
    (nr : Option RePattern) (exts : Option (List String)) (cp : Option RePattern)
    (minS : Nat) (maxS : Option Nat) (ma mb : Option Int) (cs urn : Bool)
    (compile : String → Bool → Except String RePattern)
    (envOf : String → FileEnv) (files : List String) (crx : Option String)
    (exts0 : Option (List String)) (r : SearchResult)
    (hstop : eng.stopFlag = false) :
    ((checkFile lib eng (pureEnv f) fp np nr exts cp minS maxS ma mb cs urn = .ok none)
      ∨ (∃ res, checkFile lib eng (pureEnv f) fp np nr exts cp minS maxS ma mb cs urn
          = .ok (some res)))
    ∧ ((∃ res, checkFile lib eng (pureEnv f) fp np nr exts cp minS maxS ma mb cs urn
          = .ok (some res)) ↔
        (∃ fd, f = some fd
          ∧ namePasses lib urn nr np cs (lib.basename fp) = true
          ∧ extPasses lib exts (lib.basename fp) = true
          ∧ sizePasses minS maxS fd.content.length = true
          ∧ mtimePasses ma mb fd.mtime = true
          ∧ (cp = none ∨ ∃ pat, cp = some pat
              ∧ searchInFile eng (pureEnv f) pat = true)))
    ∧ (∀ cpc nrc results events,
        compileContent compile crx cs = .ok cpc →
        compileNameRegex compile np urn cs = .ok nrc →
        search lib compile eng envOf files np exts0 crx minS maxS ma mb cs urn
          = .ok (results, events) →
        (r ∈ results ↔ ∃ fpath ∈ files,
          checkFile lib eng (envOf fpath) fpath np nrc (normalizeExtensions exts0) cpc
            minS maxS ma mb cs urn = .ok (some r))) := by
  have hc := checkFile_pure lib eng f fp np nr exts cp minS maxS ma mb cs urn hstop
  refine ⟨?_, ?_, ?_⟩
  · rw [hc]
    have hopt : ∀ o : Option SearchResult,
        ((Except.ok o : Except IOErr (Option SearchResult)) = .ok none ∨
          ∃ res, (Except.ok o : Except IOErr (Option SearchResult)) = .ok (some res)) := by
      intro o
      cases o with
      | none => exact Or.inl rfl
      | some res => exact Or.inr ⟨res, rfl⟩
    exact hopt _
  · rw [hc]
    constructor
    · rintro ⟨res, hres⟩
      cases f with
      | none => simp at hres
      | some fd =>
        refine ⟨fd, rfl, ?_⟩
        by_cases hn : namePasses lib urn nr np cs (lib.basename fp) = true
        case neg => simp [hn] at hres
        by_cases he : extPasses lib exts (lib.basename fp) = true
        case neg => simp [hn, he] at hres
        by_cases hs : sizePasses minS maxS fd.content.length = true
        case neg => simp [hn, he, hs] at hres
        by_cases hm : mtimePasses ma mb fd.mtime = true
        case neg => simp [hn, he, hs, hm] at hres
        refine ⟨hn, he, hs, hm, ?_⟩
        cases cp with
        | none => exact Or.inl rfl
        | some pat =>
          by_cases hsf : searchInFile eng (pureEnv (some fd)) pat = true
          · exact Or.inr ⟨pat, rfl, hsf⟩
          · simp [hn, he, hs, hm, hsf] at hres
    · rintro ⟨fd, rfl, hn, he, hs, hm, hcp⟩
      rcases hcp with rfl | ⟨pat, rfl, hsf⟩
      · exact ⟨⟨fp, fd.content.length, fd.mtime, "Имя файла"⟩, by simp [hn, he, hs, hm]⟩
      · exact ⟨⟨fp, fd.content.length, fd.mtime, "Содержимое файла"⟩,
          by simp [hn, he, hs, hm, hsf]⟩
  · intro cpc nrc results events hcc hcn hsrch
    simp only [search, hcc, hcn] at hsrch
    have hres : results = (searchLoop eng.stopFlag files.length (files.map (fun fpath =>
        checkFile lib eng (envOf fpath) fpath np nrc (normalizeExtensions exts0) cpc
          minS maxS ma mb cs urn)) 0).1 := by
      have := congrArg (fun x : List SearchResult × List ProgressEvent => x.1)
        (Except.ok.inj hsrch)
      exact this.symm
    rw [hres, hstop, searchLoop_results]
    rw [List.filterMap_map]
    rw [List.mem_filterMap]
    constructor
    · rintro ⟨fpath, hfp, hval⟩
      exact ⟨fpath, hfp, (resultOf_eq_some_iff _ _).mp hval⟩
    · rintro ⟨fpath, hfp, hval⟩
      exact ⟨fpath, hfp, (resultOf_eq_some_iff _ _).mpr hval⟩

/-- Claim C1 witness: a one-byte file with the match-everything pattern and
no other filters produces a result, via the theorem's iff. -/
theorem C1_conjunctive_filter_witness :
    ∃ res, checkFile ⟨fun _ _ => true, id, fun _ => ""⟩ cpuEng
      (pureEnv (some ⟨[65], 0⟩)) "f" "*" none none none 0 none none none false false
      = .ok (some res) :=
  (C1_conjunctive_filter ⟨fun _ _ => true, id, fun _ => ""⟩ cpuEng (some ⟨[65], 0⟩)
    "f" "*" none none none 0 none none none false false
    (fun _ _ => .error "") (fun _ => pureEnv none) [] none none
    ⟨"f", 1, 0, "Имя файла"⟩ rfl).2.1.mpr
    ⟨⟨[65], 0⟩, rfl, by decide, by decide, by decide, by decide, Or.inl rfl⟩

/-- The CPU content scan on a clean, fault-free, non-binary file smaller than
8 KiB: the first read is the whole file, decoded and matched directly. -/
lemma searchInFile_small (p : RePattern) (fd : FileData)
    (hlen : fd.content.length < 8192)
    (hnn : (fd.content.take 8192).contains 0 = false) :
    searchInFile cpuEng (pureEnv (some fd)) p = p.searchFn (decodeIgnore fd.content) := by
  have htake : fd.content.take 8192 = fd.content := List.take_of_length_le (by omega)
  rw [htake] at hnn
  have hng : ¬ fd.content.length > 100 * 1024 * 1024 := by omega
  simp only [searchInFile, searchInFileBody, cpuEng, FileEnv.getsizeE, FileEnv.readHeadE,
    pureEnv, Bool.false_eq_true, if_false, hnn, hng, if_true, htake]
  rw [if_pos hlen]

/-- Claim C5: the danger classification is exactly "the pattern source
contains one of the eight fixed shapes as a substring", and on a non-binary
file larger than 8 KiB and at most 100 MiB the CPU scan reads and matches
the whole file in one pass exactly when the size is at most 5 MiB (1 MiB for
a dangerous pattern), and otherwise scans in chunks of 5 MiB (512 KiB for a
dangerous pattern). -/
theorem C5_tier_selection_and_danger (p : RePattern) :
    (isDangerousPattern p = true ↔ ∃ d ∈ dangerousShapes, d.toList <:+: p.source.toList)
    ∧ (∀ fd : FileData,
        8192 < fd.content.length → fd.content.length ≤ 100 * 1024 * 1024 →
        0 ∉ fd.content.take 8192 →
        ((fd.content.length ≤ (if isDangerousPattern p then 1024 * 1024
              else 5 * 1024 * 1024) →
            searchInFile cpuEng (pureEnv (some fd)) p = p.searchFn (decodeIgnore fd.content))
          ∧ ((if isDangerousPattern p then 1024 * 1024 else 5 * 1024 * 1024)
                < fd.content.length →
            searchInFile cpuEng (pureEnv (some fd)) p =
              chunkLoop false fd.content fd.content.length
                (if isDangerousPattern p then 512 * 1024 else 5 * 1024 * 1024) p
                (pyRange fd.content.length
                  (if isDangerousPattern p then 512 * 1024 else 5 * 1024 * 1024))))) := by
  constructor
  · simp [isDangerousPattern, pyIn, List.any_eq_true]
  · intro fd h8 h100 h0
    have hnn : (fd.content.take 8192).contains 0 = false := by simpa using h0
    have ht := searchInFile_tiers p fd (Nat.le_of_lt h8) h100 hnn
    have hsafe : safeLimitOf p
        = if isDangerousPattern p then 1024 * 1024 else 5 * 1024 * 1024 := by
      simp [safeLimitOf]
    have hchunk : chunkSizeOf p
        = if isDangerousPattern p then 512 * 1024 else 5 * 1024 * 1024 := by
      simp [chunkSizeOf]
    constructor
    · intro hle
      rw [ht, if_pos (by rw [hsafe]; exact hle)]
    · intro hgt
      rw [ht, if_neg (by rw [hsafe]; omega), hchunk]

/-- Claim C5 witness: an 8193-byte ASCII file with a non-dangerous pattern
falls in the one-pass full-read tier. -/
theorem C5_tier_selection_and_danger_witness :
    searchInFile cpuEng (pureEnv (some ⟨List.replicate 8193 97, 0⟩)) ⟨"abc", fun _ => false⟩
      = RePattern.searchFn ⟨"abc", fun _ => false⟩
          (decodeIgnore (List.replicate 8193 97)) := by
  refine ((C5_tier_selection_and_danger ⟨"abc", fun _ => false⟩).2
    ⟨List.replicate 8193 97, 0⟩ (by simp only [List.length_replicate]; omega)
    (by simp only [List.length_replicate]; omega) ?_).1 ?_
  · rw [List.take_replicate]
    intro h
    exact absurd (List.eq_of_mem_replicate h) (by decide)
  · have hd : isDangerousPattern ⟨"abc", fun _ => false⟩ = false := by decide
    rw [hd]
    simp only [List.length_replicate, if_false, Bool.false_eq_true]
    omega

/-- Claim C8 counterexample: the code decodes with Python's `ignore` handler,
which deletes an invalid byte sequence rather than replacing it, so the text
the pattern sees joins the surrounding fragments directly: the byte string
`61 FF 62` decodes to `"ab"`, and the pattern matching exactly `"ab"` as
contiguous text does match — the claim says it must not. -/
theorem C8_lenient_decoding_counterexample :
    decodeIgnore [97, 255, 98] = "ab"
    ∧ searchInFile cpuEng (pureEnv (some ⟨[97, 255, 98], 0⟩))
        ⟨"ab", fun s => decide ("ab".toList <:+: s.toList)⟩ = true := by
  have hdec : utf8DecodeIgnore ([97] ++ 255 :: [98]) =
      [97].map Char.ofNat ++ utf8DecodeIgnore [98] :=
    utf8DecodeIgnore_append_invalid (by intro x hx; simp at hx; omega) (by omega)
  have hone : utf8DecodeIgnore [98] = [98].map Char.ofNat :=
    utf8DecodeIgnore_ascii (by intro x hx; simp at hx; omega)
  have hstr : decodeIgnore [97, 255, 98] = "ab" := by
    show (⟨utf8DecodeIgnore [97, 255, 98]⟩ : String) = "ab"
    rw [show ([97, 255, 98] : List Nat) = [97] ++ 255 :: [98] from rfl, hdec, hone]
    decide
  refine ⟨hstr, ?_⟩
  rw [searchInFile_small _ _ (by decide) (by decide), hstr]
  decide

/-- Claim C8 amended: decoding is lenient but *drops* invalid byte sequences
(`errors="ignore"`): for a small file made of an ASCII fragment, an invalid
lead byte, and a tail, the pattern is applied to the two decoded fragments
joined with nothing in between — so a pattern matching that contiguous
concatenation does match. -/
theorem C8_lenient_decoding_amended (l1 l2 : List Nat) (b : Nat) (t : Int) (p : RePattern)
    (hascii : ∀ x ∈ l1, x < 128) (hb : 0xF5 ≤ b)
    (h01 : 0 ∉ l1) (h02 : 0 ∉ l2)
    (hlen : l1.length + 1 + l2.length < 8192) :
    searchInFile cpuEng (pureEnv (some ⟨l1 ++ b :: l2, t⟩)) p
      = p.searchFn ⟨l1.map Char.ofNat ++ utf8DecodeIgnore l2⟩ := by
  have hlen' : (l1 ++ b :: l2).length < 8192 := by
    simp only [List.length_append, List.length_cons]
    omega
  have h0 : 0 ∉ (l1 ++ b :: l2) := by
    intro hmem
    rcases List.mem_append.mp hmem with h | h
    · exact h01 h
    · rcases List.mem_cons.mp h with h' | h'
      · omega
      · exact h02 h'
  have hnn : ((l1 ++ b :: l2).take 8192).contains 0 = false := by
    have : 0 ∉ (l1 ++ b :: l2).take 8192 := fun hm => h0 (List.mem_of_mem_take hm)
    simpa using this
  rw [searchInFile_small _ _ hlen' hnn]
  show p.searchFn ⟨utf8DecodeIgnore (l1 ++ b :: l2)⟩ = _
  rw [utf8DecodeIgnore_append_invalid hascii hb]

/-- Claim C8 amended witness: the concrete bytes `61 FF 62` with the literal
pattern `"ab"`, via the amended theorem: the match succeeds. -/
theorem C8_lenient_decoding_amended_witness :
    searchInFile cpuEng (pureEnv (some ⟨[97] ++ 255 :: [98], 0⟩))
      ⟨"ab", fun s => decide ("ab".toList <:+: s.toList)⟩ = true := by
  rw [C8_lenient_decoding_amended [97] [98] 255 0 _
    (by intro x hx; simp at hx; omega) (by omega)
    (by decide) (by decide) (by decide)]
  have hone : utf8DecodeIgnore [98] = [98].map Char.ofNat :=
    utf8DecodeIgnore_ascii (by intro x hx; simp at hx; omega)
  rw [hone]
  decide

lemma chunkSizeOf_pos (p : RePattern) : 0 < chunkSizeOf p := by
  unfold chunkSizeOf
  split <;> omega

/-- Claim C6: in the chunked scan every chunk after the first re-reads from
1 KiB before its nominal offset, so a literal match wholly inside the
overlapped window of the `k`-th chunk — in particular one straddling the
chunk boundary within the 1 KiB overlap — is still found and the scan
returns true. -/
theorem C6_chunk_overlap (fd : FileData) (p : RePattern) (lit : List Char) (i j k : Nat)
    (hb : ∀ x ∈ fd.content, 0 < x ∧ x < 128)
    (hsem : ∀ s, p.searchFn s = decide (lit <:+: s.toList))
    (h100 : fd.content.length ≤ 100 * 1024 * 1024)
    (hthr : safeLimitOf p < fd.content.length)
    (hk : 0 < k) (hkin : k * chunkSizeOf p < fd.content.length)
    (hlit : lit = ((fd.content.drop i).take (j - i)).map Char.ofNat)
    (hij : i ≤ j)
    (hstraddle1 : i < k * chunkSizeOf p) (hstraddle2 : k * chunkSizeOf p < j)
    (hiw : k * chunkSizeOf p - 1024 ≤ i)
    (hjw : j ≤ min fd.content.length (k * chunkSizeOf p + chunkSizeOf p)) :
    searchInFile cpuEng (pureEnv (some fd)) p = true := by
  have h8 : 8192 ≤ fd.content.length := by
    have := safeLimitOf_ge p
    omega
  have hnn : (fd.content.take 8192).contains 0 = false :=
    contains_zero_eq_false_of_pos (fun x hx => (hb x (List.mem_of_mem_take hx)).1)
  rw [searchInFile_tiers p fd h8 h100 hnn, if_neg (by omega)]
  have hcs : 0 < chunkSizeOf p := chunkSizeOf_pos p
  have hmem : k * chunkSizeOf p ∈ pyRange fd.content.length (chunkSizeOf p) := by
    unfold pyRange
    rw [List.mem_range']
    refine ⟨k, ?_, by ring⟩
    have heq : fd.content.length + chunkSizeOf p - 1
        = (fd.content.length - 1) + chunkSizeOf p := by omega
    rw [heq, Nat.add_div_right _ hcs]
    have hkle : k ≤ (fd.content.length - 1) / chunkSizeOf p := by
      rw [Nat.le_div_iff_mul_le hcs]
      omega
    omega
  refine chunkLoop_hit hmem ?_
  rw [hsem, decide_eq_true_eq]
  have hdecode : (decodeIgnore ((fd.content.drop (k * chunkSizeOf p - 1024)).take
      (min fd.content.length (k * chunkSizeOf p + chunkSizeOf p)
        - (k * chunkSizeOf p - 1024)))).toList
      = ((fd.content.drop (k * chunkSizeOf p - 1024)).take
          (min fd.content.length (k * chunkSizeOf p + chunkSizeOf p)
            - (k * chunkSizeOf p - 1024))).map Char.ofNat := by
    show utf8DecodeIgnore _ = _
    refine utf8DecodeIgnore_ascii (fun x hx => ?_)
    exact (hb x ((drop_take_isInfix fd.content _ _).sublist.subset hx)).2
  rw [hdecode, hlit]
  exact (slice_isInfix hiw hij hjw).map Char.ofNat

/-- A file one chunk-plus-a-bit long whose matching literal `"bcdef"`
straddles the second chunk boundary of a dangerous pattern's 512 KiB
chunking. -/
def overlapDemoFile : FileData :=
  ⟨List.replicate 1048575 97 ++ [98, 99, 100, 101, 102], 0⟩

/-- A dangerous pattern (lazy `.*?`) matching the literal `"bcdef"`. -/
def overlapDemoPat : RePattern :=
  ⟨".*?bcdef", fun s => decide ("bcdef".toList <:+: s.toList)⟩

/-- Claim C6 witness: the straddling match at byte offsets
`1048575..1048580` (the second 512 KiB boundary sits at `1048576`) is found
by the chunked scan, via the theorem. -/
theorem C6_chunk_overlap_witness :
    searchInFile cpuEng (pureEnv (some overlapDemoFile)) overlapDemoPat = true := by
  have hlen : overlapDemoFile.content.length = 1048580 := by
    show (List.replicate 1048575 (97 : Nat) ++ [98, 99, 100, 101, 102]).length = 1048580
    rw [List.length_append, List.length_replicate]
    decide
  have hd : isDangerousPattern overlapDemoPat = true := by decide
  have hsafe : safeLimitOf overlapDemoPat = 1048576 := by
    simp [safeLimitOf, hd]
  have hchunk : chunkSizeOf overlapDemoPat = 524288 := by
    simp [chunkSizeOf, hd]
  refine C6_chunk_overlap overlapDemoFile overlapDemoPat ("bcdef".toList)
    1048575 1048580 2 ?_ ?_ ?_ ?_ ?_ ?_ ?_ ?_ ?_ ?_ ?_ ?_
  · intro x hx
    rcases List.mem_append.mp hx with h | h
    · have := List.eq_of_mem_replicate h
      omega
    · simp only [List.mem_cons, List.not_mem_nil, or_false] at h
      omega
  · intro s
    rfl
  · rw [hlen]
    omega
  · rw [hsafe, hlen]
    omega
  · omega
  · rw [hchunk, hlen]
    omega
  · have hdrop : overlapDemoFile.content.drop 1048575 = [98, 99, 100, 101, 102] := by
      show (List.replicate 1048575 (97 : Nat) ++ [98, 99, 100, 101, 102]).drop 1048575 = _
      exact List.drop_left' (List.length_replicate 1048575 97)
    rw [hdrop]
    decide
  · omega
  · rw [hchunk]
    omega
  · rw [hchunk]
    omega
  · rw [hchunk]
    omega
  · rw [hchunk, hlen]
    omega
lemma not_cons_infix_replicate {c : Char} {cs : List Char} {n : Nat} {a : Char}
    (hne : c ≠ a) : ¬ (c :: cs <:+: List.replicate n a) := by
  intro h
  have hmem : c ∈ List.replicate n a := h.sublist.subset (by simp)
  exact hne (List.eq_of_mem_replicate hmem)

/-- With a clean regular file present, `searchInFile` under a GPU engine is
exactly the hybrid engine's verdict (its uncaught exceptions land in the
caller's catch-all and become false). -/
lemma searchInFile_gpu_some (eng : Eng) (h : HybridEngine) (env : FileEnv) (p : RePattern)
    (hgpu : eng.useGpu = true) (hge : eng.gpuEngine = some h) (hstop : eng.stopFlag = false) :
    searchInFile eng env p = match hybridSearchInFile h env p with
      | .ok found => found
      | .error _ => false := by
  simp only [searchInFile, searchInFileBody, hstop, hgpu, hge, Bool.false_eq_true,
    if_false, if_true]

/-- The hybrid engine on a clean non-binary file strictly between 8 KiB and
1 MiB: the matched text is only the bytes after the first 8 KiB already
consumed from the handle. -/
lemma hybridSearchInFile_midsize (h : HybridEngine) (fd : FileData) (p : RePattern)
    (h8 : 8192 < fd.content.length) (hlt : fd.content.length < 1024 * 1024)
    (hnn : (fd.content.take 8192).contains 0 = false) :
    hybridSearchInFile h (pureEnv (some fd)) p
      = .ok (p.searchFn (decodeIgnore (fd.content.drop 8192))) := by
  have hne : ¬ (fd.content.take 8192).length = fd.content.length := by
    rw [List.length_take]
    omega
  have hng : ¬ fd.content.length > 100 * 1024 * 1024 := by omega
  simp only [hybridSearchInFile, hybridSearchInFileBody, pureEnv, FileEnv.getsizeE,
    FileEnv.readHeadE, FileEnv.readRestE, hnn, Bool.false_eq_true, if_false]
  rw [if_neg hng, if_pos hlt, if_neg hne]

/-- The hybrid engine on a clean non-binary file of 1 MiB to 100 MiB, when
the pattern fails the GPU-friendly classification, or no CUDA library is
present, or the device work faults: a single CPU pass over the whole
mmapped content.  (`hcfg` records that the engine hands its own config to
the matcher it constructs, as `HybridSearchEngine.__init__` does.) -/
lemma hybridSearchInFile_large_fallback (h : HybridEngine) (fd : FileData) (p : RePattern)
    (hcfg : h.gpuMatcher.config = h.config)
    (h1m : 1024 * 1024 ≤ fd.content.length) (h100 : fd.content.length ≤ 100 * 1024 * 1024)
    (hnn : (fd.content.take 8192).contains 0 = false)
    (hcond : isPatternGpuFriendly h.gpuMatcher p.source = false
      ∨ h.gpuMatcher.device = none
      ∨ (∃ dev, h.gpuMatcher.device = some dev ∧ dev fd.content p = .error ())) :
    hybridSearchInFile h (pureEnv (some fd)) p
      = .ok (p.searchFn (decodeIgnore fd.content)) := by
  have hng : ¬ fd.content.length > 100 * 1024 * 1024 := by omega
  have hnlt : ¬ fd.content.length < 1024 * 1024 := by omega
  simp only [hybridSearchInFile, hybridSearchInFileBody, pureEnv, FileEnv.getsizeE,
    FileEnv.readHeadE, FileEnv.mmapE, hnn, Bool.false_eq_true, if_false]
  rw [if_neg hng, if_neg hnlt]
  have hcpu : searchCpuText fd.content p = p.searchFn (decodeIgnore fd.content) := rfl
  by_cases hflag : (h.config.useGpu
      && decide (fd.content.length ≥ h.config.minFileSizeForGpu)
      && h.gpuMatcher.gpuAvailable) = true
  · rw [if_pos hflag]
    have hparts := hflag
    simp only [Bool.and_eq_true] at hparts
    obtain ⟨⟨_, hmin⟩, havail⟩ := hparts
    have hminP : h.config.minFileSizeForGpu ≤ fd.content.length := by
      simpa using hmin
    have hsmall : decide (fd.content.length < h.gpuMatcher.config.minFileSizeForGpu)
        = false := by
      rw [hcfg]
      exact decide_eq_false (Nat.not_lt.mpr hminP)
    simp only [searchInTextGpu, havail, hsmall, Bool.not_true, Bool.false_or,
      Bool.false_eq_true, if_false]
    rcases hcond with hcf | hdev | ⟨dev, hdev, herr⟩
    · rw [hcf]
      simp only [Bool.not_false, if_true, hcpu]
    · by_cases hcf : isPatternGpuFriendly h.gpuMatcher p.source = true
      · rw [hcf, hdev]
        simp only [Bool.not_true, Bool.false_eq_true, if_false, hcpu]
      · rw [Bool.not_eq_true] at hcf
        rw [hcf]
        simp only [Bool.not_false, if_true, hcpu]
    · by_cases hcf : isPatternGpuFriendly h.gpuMatcher p.source = true
      · rw [hcf, hdev]
        simp only [Bool.not_true, Bool.false_eq_true, if_false, herr, hcpu]
      · rw [Bool.not_eq_true] at hcf
        rw [hcf]
        simp only [Bool.not_false, if_true, hcpu]
  · rw [if_neg hflag]

/-- The file of the C9 analysis: 10000 bytes, `"MATCH"` in the head followed
by 9995 `'a'`s. -/
def gpuDemoFile : FileData := ⟨[77, 65, 84, 67, 72] ++ List.replicate 9995 97, 0⟩

/-- A GPU-unfriendly (lookahead), dangerous (lazy `.*?`) pattern matching
the literal `"MATCH"`. -/
def gpuDemoPat : RePattern :=
  ⟨"(?=MATCH).*?", fun s => decide ("MATCH".toList <:+: s.toList)⟩

/-- A hybrid engine with an available GPU and no CUDA library loaded. -/
def gpuDemoHybrid : HybridEngine :=
  ⟨defaultGpuConfig true, ⟨defaultGpuConfig true, true, none⟩⟩

/-- A `FileSearchEngine` in GPU mode holding `gpuDemoHybrid`. -/
def gpuDemoEngine : Eng := ⟨false, true, some gpuDemoHybrid⟩

lemma gpuDemoFile_len : gpuDemoFile.content.length = 10000 := by
  show ([77, 65, 84, 67, 72] ++ List.replicate 9995 (97 : Nat)).length = 10000
  rw [List.length_append, List.length_replicate]
  decide

lemma gpuDemoFile_pos : ∀ x ∈ gpuDemoFile.content, 0 < x ∧ x < 128 := by
  intro x hx
  rcases List.mem_append.mp hx with hm | hm
  · simp only [List.mem_cons, List.not_mem_nil, or_false] at hm
    omega
  · have := List.eq_of_mem_replicate hm
    omega

lemma gpuDemoFile_nonbinary : (gpuDemoFile.content.take 8192).contains 0 = false :=
  contains_zero_eq_false_of_pos
    (fun x hx => (gpuDemoFile_pos x (List.mem_of_mem_take hx)).1)

/-- Claim C9 counterexample: `gpuDemoPat` fails the GPU-friendly
classification, yet with the GPU-backed matcher in use the engine returns
false for `gpuDemoFile` (it scans only the bytes after the first 8 KiB)
while the §4.2 CPU reference algorithm returns true — the fallback does not
reproduce the CPU reference result. -/
theorem C9_gpu_fallback_counterexample :
    isPatternGpuFriendly gpuDemoHybrid.gpuMatcher gpuDemoPat.source = false
    ∧ searchInFile gpuDemoEngine (pureEnv (some gpuDemoFile)) gpuDemoPat = false
    ∧ searchInFile cpuEng (pureEnv (some gpuDemoFile)) gpuDemoPat = true := by
  refine ⟨by decide, ?_, ?_⟩
  · rw [searchInFile_gpu_some gpuDemoEngine gpuDemoHybrid _ _ rfl rfl rfl,
      hybridSearchInFile_midsize gpuDemoHybrid gpuDemoFile gpuDemoPat
        (by rw [gpuDemoFile_len]; omega) (by rw [gpuDemoFile_len]; omega)
        gpuDemoFile_nonbinary]
    show gpuDemoPat.searchFn (decodeIgnore (gpuDemoFile.content.drop 8192)) = false
    have hdrop : gpuDemoFile.content.drop 8192 = List.replicate 1808 97 := by
      show ([77, 65, 84, 67, 72] ++ List.replicate 9995 (97 : Nat)).drop 8192 = _
      rw [show (8192 : Nat) = ([77, 65, 84, 67, 72] : List Nat).length + 8187 from by decide,
        List.drop_append, List.drop_replicate]
    rw [hdrop]
    have hascii : utf8DecodeIgnore (List.replicate 1808 97) =
        (List.replicate 1808 (97 : Nat)).map Char.ofNat :=
      utf8DecodeIgnore_ascii (fun x hx => by
        have := List.eq_of_mem_replicate hx
        omega)
    show decide ("MATCH".toList <:+: utf8DecodeIgnore (List.replicate 1808 97)) = false
    rw [hascii, List.map_replicate]
    exact decide_eq_false (not_cons_infix_replicate (by decide))
  · rw [searchInFile_tiers gpuDemoPat gpuDemoFile (by rw [gpuDemoFile_len]; omega)
      (by rw [gpuDemoFile_len]; omega) gpuDemoFile_nonbinary]
    have hd : isDangerousPattern gpuDemoPat = true := by decide
    rw [if_pos (by rw [gpuDemoFile_len]; simp [safeLimitOf, hd])]
    have hascii : utf8DecodeIgnore gpuDemoFile.content = gpuDemoFile.content.map Char.ofNat :=
      utf8DecodeIgnore_ascii (fun x hx => (gpuDemoFile_pos x hx).2)
    show decide ("MATCH".toList <:+: utf8DecodeIgnore gpuDemoFile.content) = true
    rw [hascii]
    refine decide_eq_true ?_
    show "MATCH".toList <:+: ([77, 65, 84, 67, 72] ++ List.replicate 9995 (97 : Nat)).map Char.ofNat
    rw [List.map_append]
    have hm : ([77, 65, 84, 67, 72] : List Nat).map Char.ofNat = "MATCH".toList := by decide
    exact ⟨[], (List.replicate 9995 (97 : Nat)).map Char.ofNat,
      by rw [List.nil_append, ← hm]⟩

/-- Claim C9 amended: when the pattern fails the GPU-friendly classification
(or no CUDA library is present, or the device work faults), the GPU-mode
engine falls back to one CPU regex pass over leniently decoded bytes: the
whole mmapped content for files of 1 MiB to 100 MiB — agreeing with the
§4.2 CPU reference exactly when the file also fits the safe full-read
threshold — but only the bytes after the first 8 KiB for files strictly
between 8 KiB and 1 MiB, where it can diverge from the reference. -/
theorem C9_gpu_fallback_amended (h : HybridEngine) (fd : FileData) (p : RePattern)
    (eng : Eng) (hgpu : eng.useGpu = true) (hge : eng.gpuEngine = some h)
    (hstop : eng.stopFlag = false)
    (hcfg : h.gpuMatcher.config = h.config)
    (hnn : (fd.content.take 8192).contains 0 = false)
    (hcond : isPatternGpuFriendly h.gpuMatcher p.source = false
      ∨ h.gpuMatcher.device = none
      ∨ (∃ dev, h.gpuMatcher.device = some dev ∧ dev fd.content p = .error ())) :
    (1024 * 1024 ≤ fd.content.length → fd.content.length ≤ 100 * 1024 * 1024 →
      searchInFile eng (pureEnv (some fd)) p = p.searchFn (decodeIgnore fd.content))
    ∧ (1024 * 1024 ≤ fd.content.length → fd.content.length ≤ safeLimitOf p →
      searchInFile eng (pureEnv (some fd)) p = searchInFile cpuEng (pureEnv (some fd)) p)
    ∧ (8192 < fd.content.length → fd.content.length < 1024 * 1024 →
      searchInFile eng (pureEnv (some fd)) p
        = p.searchFn (decodeIgnore (fd.content.drop 8192))) := by
  have hbig : ∀ (hlo : 1024 * 1024 ≤ fd.content.length)
      (hhi : fd.content.length ≤ 100 * 1024 * 1024),
      searchInFile eng (pureEnv (some fd)) p = p.searchFn (decodeIgnore fd.content) := by
    intro hlo hhi
    rw [searchInFile_gpu_some eng h _ _ hgpu hge hstop,
      hybridSearchInFile_large_fallback h fd p hcfg hlo hhi hnn hcond]
  refine ⟨hbig, ?_, ?_⟩
  · intro hlo hhi
    have hle : fd.content.length ≤ 100 * 1024 * 1024 := by
      have := safeLimitOf_le p
      omega
    rw [hbig hlo hle,
      searchInFile_tiers p fd (by have := safeLimitOf_ge p; omega) hle hnn, if_pos hhi]
  · intro h8 hlt
    rw [searchInFile_gpu_some eng h _ _ hgpu hge hstop,
      hybridSearchInFile_midsize h fd p h8 hlt hnn]

/-- Claim C9 amended witness: an 8193-byte file in GPU mode with a
GPU-unfriendly pattern is matched against only the bytes after the first
8 KiB, via the amended theorem. -/
theorem C9_gpu_fallback_amended_witness :
    searchInFile gpuDemoEngine (pureEnv (some ⟨List.replicate 8193 97, 0⟩))
      ⟨"(?=x)", fun _ => false⟩
      = RePattern.searchFn ⟨"(?=x)", fun _ => false⟩
          (decodeIgnore ((List.replicate 8193 (97 : Nat)).drop 8192)) := by
  refine (C9_gpu_fallback_amended gpuDemoHybrid ⟨List.replicate 8193 97, 0⟩
    ⟨"(?=x)", fun _ => false⟩ gpuDemoEngine rfl rfl rfl rfl ?_
    (Or.inr (Or.inl rfl))).2.2 ?_ ?_
  · refine contains_zero_eq_false_of_pos (fun x hx => ?_)
    have := List.eq_of_mem_replicate (List.mem_of_mem_take hx)
    omega
  · rw [List.length_replicate]
    omega
  · rw [List.length_replicate]
    omega

end Searcher
